import Mathlib

/-!
Verification of the completion streaming bridge of the ai-playground
repository (Go backend).  The relay `OpenRouterService.Chat` and the route
handler `ChatController.HandleChat` are embedded shallowly: byte streams
are lists of naturals, the relational store is an explicit `DB` value,
store writes and caller writes are recorded in an event trace, and the two
JSON decoders used by the Go code (`json.Unmarshal` on stream records,
`json.NewDecoder(...).Decode` on upstream error bodies) are abstracted as
function parameters.
-/

namespace AIPG

/-! ### Byte-stream relay loop

`bufio.Reader.ReadBytes('\n')` returns one newline-terminated line, or the
trailing unterminated data together with `io.EOF`.  The Go loop breaks on
`io.EOF` without processing that trailing data. -/

/-- One `ReadBytes('\n')` step that succeeds: the line up to and including
the first newline (byte 10), plus the remainder; `none` when no newline is
left (the `io.EOF` case). -/
def breakLine : List Nat → Option (List Nat × List Nat)
  | [] => none
  | b :: rest =>
    if b = 10 then some ([10], rest)
    else
      match breakLine rest with
      | some lr => some (b :: lr.1, lr.2)
      | none => none

theorem breakLine_length (s l r : List Nat) (h : breakLine s = some (l, r)) :
    r.length < s.length := by
  induction s generalizing l r with
  | nil => simp [breakLine] at h
  | cons b rest ih =>
    by_cases hb : b = 10
    · simp [breakLine, hb] at h
      simp [← h.2]
    · simp only [breakLine, hb, if_false] at h
      cases hbr : breakLine rest with
      | none => rw [hbr] at h; simp at h
      | some lr =>
        rw [hbr] at h
        simp at h
        have := ih lr.1 lr.2 (by rw [hbr])
        rw [← h.2]
        exact Nat.lt_succ_of_lt this

theorem breakLine_append_eq (s l r : List Nat) (h : breakLine s = some (l, r)) :
    l ++ r = s := by
  induction s generalizing l r with
  | nil => simp [breakLine] at h
  | cons b rest ih =>
    by_cases hb : b = 10
    · simp [breakLine, hb] at h
      simp [← h.1, ← h.2, hb]
    · simp only [breakLine, hb, if_false] at h
      cases hbr : breakLine rest with
      | none => rw [hbr] at h; simp at h
      | some lr =>
        rw [hbr] at h
        simp at h
        have := ih lr.1 lr.2 (by rw [hbr])
        rw [← h.1, ← h.2]
        simpa using this

theorem breakLine_none_iff (s : List Nat) :
    breakLine s = none ↔ ∀ b ∈ s, b ≠ 10 := by
  induction s with
  | nil => simp [breakLine]
  | cons b rest ih =>
    by_cases hb : b = 10
    · simp [breakLine, hb]
    · simp only [breakLine, hb, if_false]
      constructor
      · intro h
        cases hbr : breakLine rest with
        | none =>
          intro x hx
          rcases List.mem_cons.mp hx with hx | hx
          · simpa [hx] using hb
          · exact (ih.mp hbr) x hx
        | some lr => rw [hbr] at h; simp at h
      · intro h
        have : breakLine rest = none :=
          ih.mpr (fun x hx => h x (List.mem_cons.mpr (Or.inr hx)))
        rw [this]

theorem breakLine_append_some (u t l r : List Nat) (h : breakLine u = some (l, r)) :
    breakLine (u ++ t) = some (l, r ++ t) := by
  induction u generalizing l r with
  | nil => simp [breakLine] at h
  | cons b rest ih =>
    by_cases hb : b = 10
    · simp [breakLine, hb] at h ⊢
      simp [← h.1, ← h.2]
    · simp only [breakLine, hb, if_false] at h
      cases hbr : breakLine rest with
      | none => rw [hbr] at h; simp at h
      | some lr =>
        rw [hbr] at h
        simp at h
        simp only [List.cons_append, breakLine, hb, if_false]
        erw [ih lr.1 lr.2 (by rw [hbr])]
        simp [← h.1, ← h.2]

/-- Fuel-bounded iteration of `ReadBytes('\n')`: returns the complete
lines read (each with its newline) and the trailing data left at `io.EOF`.
A fuel of `s.length` always suffices since each line consumes at least one
byte. -/
def scanLines : Nat → List Nat → List (List Nat) × List Nat
  | 0, s => ([], s)
  | fuel + 1, s =>
    match breakLine s with
    | some lr =>
      let t := scanLines fuel lr.2
      (lr.1 :: t.1, t.2)
    | none => ([], s)

theorem scanLines_none (n : Nat) (s : List Nat) (h : breakLine s = none) :
    scanLines n s = ([], s) := by
  cases n with
  | zero => rfl
  | succ n => simp [scanLines, h]

theorem scanLines_fuel (n : Nat) (s : List Nat) (hs : s.length ≤ n) :
    scanLines n s = scanLines s.length s := by
  induction n using Nat.strong_induction_on generalizing s with
  | _ n ih =>
    cases n with
    | zero =>
      have : s = [] := List.eq_nil_of_length_eq_zero (Nat.le_zero.mp hs)
      subst this
      rfl
    | succ n =>
      cases hbr : breakLine s with
      | none => rw [scanLines_none _ s hbr, scanLines_none _ s hbr]
      | some lr =>
        have hlen := breakLine_length s lr.1 lr.2 hbr
        obtain ⟨k, hk⟩ : ∃ k, s.length = k + 1 := by
          cases hsl : s.length with
          | zero =>
            have hnil : s = [] := List.eq_nil_of_length_eq_zero hsl
            rw [hnil] at hbr
            cases hbr
          | succ k => exact ⟨k, rfl⟩
        rw [hk]
        simp only [scanLines, hbr]
        rw [ih n (Nat.lt_succ_self n) lr.2 (by omega),
          ih k (by omega) lr.2 (by omega)]

/-- All complete (newline-terminated) lines read by the loop, in order,
each including its trailing newline. -/
def readLines (s : List Nat) : List (List Nat) :=
  (scanLines s.length s).1

/-- The residue the loop discards: the data returned together with
`io.EOF` after the last complete line. -/
def lineRest (s : List Nat) : List Nat :=
  (scanLines s.length s).2

theorem readLines_some (s l r : List Nat) (h : breakLine s = some (l, r)) :
    readLines s = l :: readLines r := by
  have hlen := breakLine_length s l r h
  obtain ⟨k, hk⟩ : ∃ k, s.length = k + 1 := by
    cases hsl : s.length with
    | zero =>
      have hnil : s = [] := List.eq_nil_of_length_eq_zero hsl
      rw [hnil] at h
      cases h
    | succ k => exact ⟨k, rfl⟩
  rw [readLines, hk]
  simp only [scanLines, h]
  rw [scanLines_fuel k r (by omega)]
  rfl

theorem readLines_none (s : List Nat) (h : breakLine s = none) :
    readLines s = [] := by
  rw [readLines, scanLines_none _ s h]

theorem lineRest_some (s l r : List Nat) (h : breakLine s = some (l, r)) :
    lineRest s = lineRest r := by
  have hlen := breakLine_length s l r h
  obtain ⟨k, hk⟩ : ∃ k, s.length = k + 1 := by
    cases hsl : s.length with
    | zero =>
      have hnil : s = [] := List.eq_nil_of_length_eq_zero hsl
      rw [hnil] at h
      cases h
    | succ k => exact ⟨k, rfl⟩
  rw [lineRest, hk]
  simp only [scanLines, h]
  rw [scanLines_fuel k r (by omega)]
  rfl

theorem lineRest_none (s : List Nat) (h : breakLine s = none) :
    lineRest s = s := by
  rw [lineRest, scanLines_none _ s h]

theorem readLines_join_lineRest (s : List Nat) :
    (readLines s).flatten ++ lineRest s = s := by
  cases hbr : breakLine s with
  | some lr =>
    have hlen := breakLine_length s lr.1 lr.2 hbr
    have happ := breakLine_append_eq s lr.1 lr.2 hbr
    rw [readLines_some s lr.1 lr.2 hbr, lineRest_some s lr.1 lr.2 hbr]
    rw [List.flatten_cons, List.append_assoc, readLines_join_lineRest lr.2, happ]
  | none =>
    rw [readLines_none s hbr, lineRest_none s hbr]
    simp
termination_by s.length
decreasing_by exact hlen

theorem lineRest_no_newline (s : List Nat) : ∀ b ∈ lineRest s, b ≠ 10 := by
  cases hbr : breakLine s with
  | some lr =>
    have hlen := breakLine_length s lr.1 lr.2 hbr
    rw [lineRest_some s lr.1 lr.2 hbr]
    exact lineRest_no_newline lr.2
  | none =>
    rw [lineRest_none s hbr]
    exact (breakLine_none_iff s).mp hbr
termination_by s.length
decreasing_by exact hlen

theorem lineRest_eq_nil (s : List Nat) (h : s = [] ∨ s.getLast? = some 10) :
    lineRest s = [] := by
  rcases h with h | h
  · subst h
    exact lineRest_none [] rfl
  · by_contra hne
    have hsplit := readLines_join_lineRest s
    have hlast : s.getLast? = (lineRest s).getLast? := by
      conv_lhs => rw [← hsplit]
      exact List.getLast?_append_of_ne_nil _ hne
    rw [h] at hlast
    have hmem : (10 : Nat) ∈ lineRest s := by
      obtain ⟨hnn, hx⟩ := List.mem_getLast?_eq_getLast hlast.symm
      rw [hx]
      exact List.getLast_mem hnn
    exact lineRest_no_newline s 10 hmem rfl

theorem readLines_append (u t : List Nat) (hu : lineRest u = []) :
    readLines (u ++ t) = readLines u ++ readLines t := by
  cases hbr : breakLine u with
  | some lr =>
    have hlen := breakLine_length u lr.1 lr.2 hbr
    have hrest : lineRest lr.2 = [] := by
      rw [lineRest_some u lr.1 lr.2 hbr] at hu
      exact hu
    have hb2 := breakLine_append_some u t lr.1 lr.2 hbr
    rw [readLines_some _ lr.1 (lr.2 ++ t) hb2, readLines_some u lr.1 lr.2 hbr]
    rw [readLines_append lr.2 t hrest]
    simp
  | none =>
    have : u = [] := by
      rw [lineRest_none u hbr] at hu
      exact hu
    subst this
    rw [readLines_none [] rfl]
    simp
termination_by u.length
decreasing_by exact hlen

/-- The relay loop (part_003 lines 211-232): each complete line is
appended to the in-memory accumulation buffer and written to the caller;
the result is `(buffered bytes, written bytes)`.  The read that returns
`io.EOF` terminates the loop and its data is dropped. -/
def relayLoop (s : List Nat) : List Nat × List Nat :=
  (readLines s).foldl (fun acc l => (acc.1 ++ l, acc.2 ++ l)) ([], [])

theorem foldl_pair_append (ls : List (List Nat)) (a b : List Nat) :
    ls.foldl (fun acc l => (acc.1 ++ l, acc.2 ++ l)) (a, b) =
      (a ++ ls.flatten, b ++ ls.flatten) := by
  induction ls generalizing a b with
  | nil => simp
  | cons x xs ih => simp [ih, List.append_assoc]

theorem relayLoop_eq (s : List Nat) :
    relayLoop s = ((readLines s).flatten, (readLines s).flatten) := by
  simp [relayLoop, foldl_pair_append]

/-! ### Parsing the accumulated buffer

`bytes.Split(buf, "\n")` splits on every newline, keeping empty chunks;
each chunk no longer carries its separator. -/

/-- `bytes.Split(s, "\n")`: the chunks between newlines (no separators
kept); equivalently the read lines without their newlines followed by the
final chunk. -/
def splitNL (s : List Nat) : List (List Nat) :=
  (readLines s).map List.dropLast ++ [lineRest s]

theorem splitNL_some (s l r : List Nat) (h : breakLine s = some (l, r)) :
    splitNL s = l.dropLast :: splitNL r := by
  rw [splitNL, splitNL, readLines_some s l r h, lineRest_some s l r h]
  simp

theorem splitNL_none (s : List Nat) (h : breakLine s = none) :
    splitNL s = [s] := by
  rw [splitNL, readLines_none s h, lineRest_none s h]
  simp

/-- Bytes of the sentinel `"data: "`. -/
def dataMark : List Nat := [100, 97, 116, 97, 58, 32]

/-- Bytes of the terminal payload `"[DONE]"`. -/
def doneMark : List Nat := [91, 68, 79, 78, 69, 93]

namespace services

/-- Source `ChatMessage`: one role/content pair of the upstream payload. -/
structure ChatMessage where
  role : String
  content : String
deriving DecidableEq

/-- Source request-side `Message` (json fields id, chat_id, role, content,
model_name). -/
structure Message where
  id : Nat
  chatID : Nat
  role : String
  content : String
  modelName : String
deriving DecidableEq

/-- Source `ChatRequest`. -/
structure ChatRequest where
  model : String
  messages : List Message
  stream : Bool
  chatID : Nat
deriving DecidableEq

/-- Source anonymous struct marshalled as the upstream request body:
only model, role/content pairs and the stream flag. -/
structure APIRequest where
  model : String
  messages : List ChatMessage
  stream : Bool
deriving DecidableEq

/-- The delta object inside a `StreamChoice`. -/
structure Delta where
  role : String := ""
  content : String := ""
deriving DecidableEq

/-- Source `StreamChoice`. -/
structure StreamChoice where
  index : Int := 0
  delta : Delta := {}
  finishReason : String := ""
deriving DecidableEq

/-- Source `UsageData`. -/
structure UsageData where
  promptTokens : Int
  completionTokens : Int
  totalTokens : Int
deriving DecidableEq

/-- Source `StreamResponse`. -/
structure StreamResponse where
  id : String := ""
  choices : List StreamChoice := []
  usage : Option UsageData := none
deriving DecidableEq

/-- The mutable locals of the parse loop: `fullResponse`, `promptTokens`,
`completionTokens`, `totalTokens` (part_003 lines 235-237). -/
structure ParseState where
  fullResponse : String := ""
  promptTokens : Int := 0
  completionTokens : Int := 0
  totalTokens : Int := 0
deriving DecidableEq

/-- One iteration of the parse loop (part_003 lines 242-273); `decode`
stands for `json.Unmarshal` into `StreamResponse`. -/
def processLine (decode : List Nat → Option StreamResponse)
    (st : ParseState) (line : List Nat) : ParseState :=
  if line.length = 0 then st
  else if dataMark.isPrefixOf line then
    let data := line.drop dataMark.length
    if data = doneMark then st
    else
      match decode data with
      | none => st
      | some sr =>
        let st1 :=
          match sr.usage with
          | some u => { st with promptTokens := u.promptTokens,
                                completionTokens := u.completionTokens,
                                totalTokens := u.totalTokens }
          | none => st
        match sr.choices with
        | c :: _ => { st1 with fullResponse := st1.fullResponse ++ c.delta.content }
        | [] => st1
  else st

/-- The whole parse of the accumulated buffer (part_003 lines 239-273). -/
def parseBuffer (decode : List Nat → Option StreamResponse)
    (buf : List Nat) : ParseState :=
  (splitNL buf).foldl (processLine decode) {}

/-- Modelled from the spec: the content fragment a single buffer line
contributes, following the words of the claim — the line must carry the
`data: ` sentinel, its payload must not be `[DONE]` and must decode;
the fragment is `delta.content` of the first choice. -/
def extractDelta (decode : List Nat → Option StreamResponse)
    (line : List Nat) : Option String :=
  if dataMark.isPrefixOf line then
    let data := line.drop dataMark.length
    if data = doneMark then none
    else
      match decode data with
      | none => none
      | some sr =>
        match sr.choices with
        | c :: _ => some c.delta.content
        | [] => none
  else none

/-- Modelled from the spec: the usage triple a single buffer line carries,
when its decodable non-`[DONE]` `data: ` payload contains a usage object. -/
def extractUsage (decode : List Nat → Option StreamResponse)
    (line : List Nat) : Option (Int × Int × Int) :=
  if dataMark.isPrefixOf line then
    let data := line.drop dataMark.length
    if data = doneMark then none
    else
      match decode data with
      | none => none
      | some sr =>
        match sr.usage with
        | some u => some (u.promptTokens, u.completionTokens, u.totalTokens)
        | none => none
  else none

/-- Modelled from the spec: the assembled text is the concatenation, in
arrival order, of the contributed fragments of every line of the buffer. -/
def specAssembledContent (decode : List Nat → Option StreamResponse)
    (buf : List Nat) : String :=
  String.join ((splitNL buf).filterMap (extractDelta decode))

/-- Modelled from the spec: the last usage object observed across the
buffer lines, if any. -/
def specLastUsage (decode : List Nat → Option StreamResponse)
    (buf : List Nat) : Option (Int × Int × Int) :=
  ((splitNL buf).filterMap (extractUsage decode)).getLast?

/-- The usage counters of a parse state, as a triple. -/
def ParseState.usageTriple (st : ParseState) : Int × Int × Int :=
  (st.promptTokens, st.completionTokens, st.totalTokens)

theorem processLine_fullResponse (decode : List Nat → Option StreamResponse)
    (st : ParseState) (line : List Nat) :
    (processLine decode st line).fullResponse =
      st.fullResponse ++ ((extractDelta decode line).getD "") := by
  by_cases h0 : line.length = 0
  · have hl : line = [] := List.length_eq_zero.mp h0
    subst hl
    simp [processLine, extractDelta, dataMark, List.isPrefixOf]
  · simp only [processLine, h0, if_false]
    by_cases hp : dataMark.isPrefixOf line
    · simp only [hp, if_true, extractDelta]
      by_cases hd : line.drop dataMark.length = doneMark
      · simp [hd]
      · simp only [hd, if_false]
        cases hdec : decode (line.drop dataMark.length) with
        | none => simp
        | some sr =>
          cases hch : sr.choices with
          | nil =>
            cases hu : sr.usage with
            | none => simp [hch, hu]
            | some u => simp [hch, hu]
          | cons c cs =>
            cases hu : sr.usage with
            | none => simp [hch, hu]
            | some u => simp [hch, hu]
    · simp [hp, extractDelta]

theorem processLine_usage (decode : List Nat → Option StreamResponse)
    (st : ParseState) (line : List Nat) :
    (processLine decode st line).usageTriple =
      (extractUsage decode line).getD st.usageTriple := by
  by_cases h0 : line.length = 0
  · have hl : line = [] := List.length_eq_zero.mp h0
    subst hl
    simp [processLine, extractUsage, dataMark, List.isPrefixOf]
  · simp only [processLine, h0, if_false]
    by_cases hp : dataMark.isPrefixOf line
    · simp only [hp, if_true, extractUsage]
      by_cases hd : line.drop dataMark.length = doneMark
      · simp [hd]
      · simp only [hd, if_false]
        cases hdec : decode (line.drop dataMark.length) with
        | none => simp
        | some sr =>
          cases hch : sr.choices with
          | nil =>
            cases hu : sr.usage with
            | none => simp [hch, hu]
            | some u => simp [hch, hu, ParseState.usageTriple]
          | cons c cs =>
            cases hu : sr.usage with
            | none => simp [hch, hu, ParseState.usageTriple]
            | some u => simp [hch, hu, ParseState.usageTriple]
    · simp [hp, extractUsage]

theorem string_foldl_append (l : List String) (a : String) :
    l.foldl (fun r s => r ++ s) a = a ++ l.foldl (fun r s => r ++ s) "" := by
  induction l generalizing a with
  | nil => simp
  | cons x xs ih =>
    rw [List.foldl_cons, List.foldl_cons, ih (a ++ x), ih ("" ++ x)]
    simp [String.append_assoc]

theorem parse_fold_content (decode : List Nat → Option StreamResponse)
    (ls : List (List Nat)) (st : ParseState) :
    (ls.foldl (processLine decode) st).fullResponse =
      st.fullResponse ++ String.join (ls.filterMap (extractDelta decode)) := by
  induction ls generalizing st with
  | nil => simp [String.join]
  | cons l ls ih =>
    rw [List.foldl_cons, ih]
    rw [processLine_fullResponse]
    cases hx : extractDelta decode l with
    | none => simp [hx]
    | some frag =>
      have hfm : List.filterMap (extractDelta decode) (l :: ls) =
          frag :: List.filterMap (extractDelta decode) ls := by
        rw [List.filterMap_cons, hx]
      rw [hfm]
      simp only [hx, Option.getD_some, String.join, List.foldl_cons]
      rw [string_foldl_append (List.filterMap (extractDelta decode) ls) ("" ++ frag)]
      simp [String.append_assoc, String.empty_append]

theorem parse_fold_usage (decode : List Nat → Option StreamResponse)
    (ls : List (List Nat)) (st : ParseState) :
    (ls.foldl (processLine decode) st).usageTriple =
      ((ls.filterMap (extractUsage decode)).getLast?).getD st.usageTriple := by
  induction ls generalizing st with
  | nil => simp
  | cons l ls ih =>
    rw [List.foldl_cons, ih]
    rw [processLine_usage]
    cases hx : extractUsage decode l with
    | none => simp [hx]
    | some u =>
      have hfm : List.filterMap (extractUsage decode) (l :: ls) =
          u :: List.filterMap (extractUsage decode) ls := by
        rw [List.filterMap_cons, hx]
      rw [hfm, List.getLast?_cons]
      simp

theorem parseBuffer_content (decode : List Nat → Option StreamResponse)
    (buf : List Nat) :
    (parseBuffer decode buf).fullResponse = specAssembledContent decode buf := by
  rw [parseBuffer, specAssembledContent, parse_fold_content]
  rfl

theorem parseBuffer_usage (decode : List Nat → Option StreamResponse)
    (buf : List Nat) :
    (parseBuffer decode buf).usageTriple =
      (specLastUsage decode buf).getD (0, 0, 0) := by
  rw [parseBuffer, specLastUsage, parse_fold_usage]
  rfl

end services

/-! ### Persistence store

`models.Chat` and `models.Message` (backend/models/chat.go), with the
store abstracted as in-memory lists plus auto-increment primary keys. -/

namespace models

/-- Stored conversation row (fork/lineage fields are out of the relay's
scope and omitted). -/
structure Chat where
  id : Nat
  modelName : String := ""
  starred : Bool := false
deriving DecidableEq

/-- Stored message row. -/
structure Message where
  id : Nat
  chatID : Nat
  role : String
  content : String
  modelName : String := ""
  starred : Bool := false
  promptTokens : Int := 0
  completionTokens : Int := 0
  totalTokens : Int := 0
deriving DecidableEq

/-- Role and content of a stored row, for claims about what was written. -/
def Message.rc (m : Message) : String × String := (m.role, m.content)

end models

/-- Role and content of a request-side message. -/
def services.Message.rc (m : services.Message) : String × String :=
  (m.role, m.content)

/-- The relational store: rows plus auto-increment keys (gorm `Create`
assigns the next primary key). -/
structure DB where
  chats : List models.Chat
  messages : List models.Message
  nextChatID : Nat := 1
  nextMsgID : Nat := 1
deriving DecidableEq

/-- gorm `DB.Create(&chat)`: insert and assign the next id. -/
def DB.createChat (db : DB) (modelName : String) : models.Chat × DB :=
  let c : models.Chat := { id := db.nextChatID, modelName := modelName }
  (c, { db with chats := db.chats ++ [c], nextChatID := db.nextChatID + 1 })

/-- gorm `DB.First(&chat, id)`: find by primary key. -/
def DB.firstChat (db : DB) (id : Nat) : Option models.Chat :=
  db.chats.find? (fun c => c.id == id)

/-- gorm `DB.Create(&message)`: insert and assign the next id. -/
def DB.createMessage (db : DB) (m : models.Message) : models.Message × DB :=
  let m1 := { m with id := db.nextMsgID }
  (m1, { db with messages := db.messages ++ [m1], nextMsgID := db.nextMsgID + 1 })

/-- gorm `DB.Model(&msg).Update("content", v)`: update by primary key. -/
def DB.updateMessageContent (db : DB) (id : Nat) (content : String) : DB :=
  { db with messages :=
      db.messages.map (fun m => if m.id == id then { m with content := content } else m) }

/-- gorm `DB.Model(&msg).Updates(tokens)`: update by primary key. -/
def DB.updateMessageUsage (db : DB) (id : Nat) (p c t : Int) : DB :=
  { db with messages :=
      db.messages.map (fun m =>
        if m.id == id then
          { m with promptTokens := p, completionTokens := c, totalTokens := t }
        else m) }

/-- Find a stored message by primary key. -/
def DB.findMsg (db : DB) (id : Nat) : Option models.Message :=
  db.messages.find? (fun m => m.id == id)

/-- One observable step of a `Chat` call, in execution order: store
writes and caller writes. -/
inductive Event where
  | createChat : Nat → Event
  | createTurn : models.Message → Event
  | write : List Nat → Event
  | updateContent : Nat → String → Event
  | updateUsage : Nat → Int → Int → Int → Event
deriving DecidableEq

/-- Whether an event is a caller write. -/
def Event.isWrite : Event → Bool
  | .write _ => true
  | _ => false

/-- Whether an event creates an assistant turn with empty content. -/
def Event.isEmptyAssistantTurn : Event → Bool
  | .createTurn m => m.role == "assistant" && m.content == ""
  | _ => false

/-- Whether an event creates an assistant turn. -/
def Event.isAssistantCreate : Event → Bool
  | .createTurn m => m.role == "assistant"
  | _ => false

namespace services

/-- Errors returned by `OpenRouterService.Chat`. -/
inductive ChatErr where
  | loadChat : ChatErr
  | statusOnly : Nat → ChatErr
  | apiError : String → Int → ChatErr
  | connectError : ChatErr
deriving DecidableEq

/-- The upstream call's observable outcome: connection failure, or a
status code with the raw response body bytes. -/
inductive Upstream where
  | connectFail : Upstream
  | resp : Nat → List Nat → Upstream
deriving DecidableEq

/-- Result of a `Chat` call: outcome, final store, bytes written to the
caller, the event trace, and the id of the placeholder assistant turn
when one was created. -/
structure ChatOutcome where
  result : Except ChatErr Unit
  db : DB
  written : List Nat
  events : List Event
  assistantID : Option Nat

/-- Step 2 of the relay (part_003 lines 110-127): persist every input
message that has no id yet, in order; messages carrying an id are
skipped. -/
def saveNewMessages (model : String) (chatID : Nat) :
    List Message → DB → DB × List Event
  | [], db => (db, [])
  | msg :: rest, db =>
    if msg.id ≠ 0 then saveNewMessages model chatID rest db
    else
      let md := db.createMessage
        { id := 0, chatID := chatID, role := msg.role,
          content := msg.content, modelName := model }
      let tail := saveNewMessages model chatID rest md.2
      (tail.1, Event.createTurn md.1 :: tail.2)

/-- Step 3 of the relay (part_003 lines 132-149): the upstream request
body contains only the model, the role/content pairs in order, and the
stream flag. -/
def buildAPIRequest (req : ChatRequest) : APIRequest :=
  { model := req.model,
    messages := req.messages.map (fun m => { role := m.role, content := m.content }),
    stream := req.stream }

/-- Step 1 of the relay (part_003 lines 97-108): load the chat by id, or
create a fresh `models.Chat{}` when the id is zero. -/
def resolveChat (chatID : Nat) (db : DB) :
    Except ChatErr (models.Chat × Nat × DB × List Event) :=
  if chatID ≠ 0 then
    match db.firstChat chatID with
    | none => Except.error ChatErr.loadChat
    | some chat => Except.ok (chat, chatID, db, [])
  else
    let cd := db.createChat ""
    Except.ok (cd.1, cd.1.id, cd.2, [Event.createChat cd.1.id])

/-- Steps 6-10 of the relay (part_003 lines 196-294): create the empty
assistant placeholder, relay the stream line by line while buffering it,
parse the buffer, then write content and (conditionally) usage. -/
def streamAndPersist (decode : List Nat → Option StreamResponse)
    (chat : models.Chat) (db2 : DB) (ev2 : List Event) (body : List Nat) :
    ChatOutcome :=
  let cm := db2.createMessage
    { id := 0, chatID := chat.id, role := "assistant", content := "" }
  let rl := relayLoop body
  let st := parseBuffer decode rl.1
  let db4 := cm.2.updateMessageContent cm.1.id st.fullResponse
  let cond := st.promptTokens != 0 || st.completionTokens != 0 || st.totalTokens != 0
  let db5 :=
    if cond then
      db4.updateMessageUsage cm.1.id st.promptTokens st.completionTokens st.totalTokens
    else db4
  { result := Except.ok (),
    db := db5,
    written := rl.2,
    events := ev2 ++ [Event.createTurn cm.1] ++ (readLines body).map Event.write
      ++ [Event.updateContent cm.1.id st.fullResponse]
      ++ (if cond then
            [Event.updateUsage cm.1.id st.promptTokens st.completionTokens st.totalTokens]
          else []),
    assistantID := some cm.1.id }

/-- `OpenRouterService.Chat` (part_003 lines 94-295): resolve the chat,
persist new input turns, call upstream, surface non-200 errors, otherwise
relay and persist the assembled reply. -/
def Chat (decode : List Nat → Option StreamResponse)
    (errDecode : List Nat → Option (String × Int))
    (req : ChatRequest) (chatID : Nat) (up : Upstream) (db : DB) : ChatOutcome :=
  match resolveChat chatID db with
  | Except.error e => ⟨Except.error e, db, [], [], none⟩
  | Except.ok (chat, cid, db1, ev1) =>
    let sv := saveNewMessages req.model cid req.messages db1
    let db2 := sv.1
    let ev2 := ev1 ++ sv.2
    match up with
    | Upstream.connectFail => ⟨Except.error ChatErr.connectError, db2, [], ev2, none⟩
    | Upstream.resp code body =>
      if code ≠ 200 then
        match errDecode body with
        | none => ⟨Except.error (ChatErr.statusOnly code), db2, [], ev2, none⟩
        | some mc => ⟨Except.error (ChatErr.apiError mc.1 mc.2), db2, [], ev2, none⟩
      else streamAndPersist decode chat db2 ev2 body

end services

namespace controllers

/-- Errors returned by the route handler. -/
inductive HandleErr where
  | notFound : HandleErr
  | service : services.ChatErr → HandleErr
deriving DecidableEq

/-- Result of `HandleChat`: outcome, final store, bytes written, and the
`X-Chat-ID` header value when a chat was newly created. -/
structure HandleOutcome where
  result : Except HandleErr Unit
  db : DB
  written : List Nat
  xChatID : Option Nat

/-- `ChatController.HandleChat` (chat_controller.go lines 23-71): load the
chat when an id was given (404-style failure when absent), otherwise
create one tagged with the requested model and expose its id in the
`X-Chat-ID` header; then invoke the service. -/
def HandleChat (decode : List Nat → Option services.StreamResponse)
    (errDecode : List Nat → Option (String × Int))
    (req : services.ChatRequest) (up : services.Upstream) (db : DB) :
    HandleOutcome :=
  if req.chatID ≠ 0 then
    match db.firstChat req.chatID with
    | none => ⟨Except.error HandleErr.notFound, db, [], none⟩
    | some chat =>
      let o := services.Chat decode errDecode req chat.id up db
      ⟨o.result.mapError HandleErr.service, o.db, o.written, none⟩
  else
    let cd := db.createChat req.model
    let o := services.Chat decode errDecode req cd.1.id up cd.2
    ⟨o.result.mapError HandleErr.service, o.db, o.written, some cd.1.id⟩

end controllers

/-! ### Concrete fixtures used by the witnesses -/

/-- A concrete upstream body: `data: 1`, `data: 2`, `data: [DONE]`, each
newline-terminated. -/
def sampleBody : List Nat :=
  dataMark ++ [49, 10] ++ dataMark ++ [50, 10] ++ dataMark ++ doneMark ++ [10]

/-- A concrete stream-record decoder for the two payloads of
`sampleBody`: payload `1` carries the fragment "Hel", payload `2` carries
"lo" and a usage object. -/
def decode0 : List Nat → Option services.StreamResponse := fun data =>
  if data = [49] then some { choices := [{ delta := { content := "Hel" } }] }
  else if data = [50] then
    some { choices := [{ delta := { content := "lo" } }],
           usage := some { promptTokens := 3, completionTokens := 4, totalTokens := 7 } }
  else none

/-- A concrete error-body decoder reporting a 429. -/
def errDecode0 : List Nat → Option (String × Int) := fun _ =>
  some ("rate limited", 429)

/-- An empty store. -/
def db0 : DB := { chats := [], messages := [] }

/-- A concrete request: one fresh user turn, streaming, no chat id. -/
def req0 : services.ChatRequest :=
  { model := "m1",
    messages := [{ id := 0, chatID := 0, role := "user", content := "hi",
                   modelName := "" }],
    stream := true,
    chatID := 0 }

/-- `req0` with different internal ids, chat ids and stored model names
but the same role/content pairs. -/
def req1 : services.ChatRequest :=
  { model := "m1",
    messages := [{ id := 5, chatID := 9, role := "user", content := "hi",
                   modelName := "zz" }],
    stream := true,
    chatID := 4 }

/-! ### Store lemmas -/

theorem map_upd_of_ne (f : models.Message → models.Message) (aid : Nat)
    (l : List models.Message) (h : ∀ m ∈ l, m.id ≠ aid) :
    l.map (fun m => if m.id == aid then f m else m) = l := by
  induction l with
  | nil => rfl
  | cons x xs ih =>
    have hx : (x.id == aid) = false := by
      simpa using h x (List.mem_cons_self x xs)
    simp only [List.map_cons, hx, Bool.false_eq_true, if_false]
    rw [ih (fun m hm => h m (List.mem_cons_of_mem x hm))]

theorem find?_concat_eq {α : Type} (l : List α) (x : α)
    (p : α → Bool) (h : ∀ y ∈ l, p y = false) (hx : p x = true) :
    (l ++ [x]).find? p = some x := by
  induction l with
  | nil => simp [List.find?, hx]
  | cons y ys ih =>
    have hy : p y = false := h y (List.mem_cons_self y ys)
    simp only [List.cons_append, List.find?, hy]
    exact ih (fun z hz => h z (List.mem_cons_of_mem y hz))

namespace services

theorem saveNewMessages_chats (model : String) (cid : Nat)
    (msgs : List Message) (db : DB) :
    (saveNewMessages model cid msgs db).1.chats = db.chats ∧
      (saveNewMessages model cid msgs db).1.nextChatID = db.nextChatID := by
  induction msgs generalizing db with
  | nil => exact ⟨rfl, rfl⟩
  | cons msg rest ih =>
    simp only [saveNewMessages]
    by_cases h : msg.id ≠ 0
    · rw [if_pos h]; exact ih db
    · rw [if_neg h]; exact ih _

theorem saveNewMessages_rc (model : String) (cid : Nat)
    (msgs : List Message) (db : DB) :
    (saveNewMessages model cid msgs db).1.messages.map models.Message.rc =
      db.messages.map models.Message.rc ++
        (msgs.filter (fun m => m.id == 0)).map Message.rc := by
  induction msgs generalizing db with
  | nil => simp [saveNewMessages]
  | cons msg rest ih =>
    simp only [saveNewMessages]
    by_cases h : msg.id ≠ 0
    · rw [if_pos h]
      have hf : (msg.id == 0) = false := by simpa using h
      simp only [List.filter_cons, hf, Bool.false_eq_true, if_false]
      exact ih db
    · rw [if_neg h]
      have h0 : msg.id = 0 := by simpa using h
      have hf : (msg.id == 0) = true := by simpa using h0
      simp only [List.filter_cons, hf, if_true]
      rw [ih]
      simp [DB.createMessage, models.Message.rc, Message.rc]

theorem saveNewMessages_append (model : String) (cid : Nat)
    (msgs : List Message) (db : DB) :
    ∃ app, (saveNewMessages model cid msgs db).1.messages =
      db.messages ++ app := by
  induction msgs generalizing db with
  | nil => exact ⟨[], by simp [saveNewMessages]⟩
  | cons msg rest ih =>
    simp only [saveNewMessages]
    by_cases h : msg.id ≠ 0
    · rw [if_pos h]; exact ih db
    · rw [if_neg h]
      dsimp only
      obtain ⟨app, happ⟩ := ih (db.createMessage
        { id := 0, chatID := cid, role := msg.role,
          content := msg.content, modelName := model }).2
      refine ⟨{ id := db.nextMsgID, chatID := cid, role := msg.role,
                content := msg.content, modelName := model } :: app, ?_⟩
      rw [happ]
      simp [DB.createMessage]

theorem saveNewMessages_bound (model : String) (cid : Nat)
    (msgs : List Message) (db : DB)
    (h : ∀ m ∈ db.messages, m.id < db.nextMsgID) :
    ∀ m ∈ (saveNewMessages model cid msgs db).1.messages,
      m.id < (saveNewMessages model cid msgs db).1.nextMsgID := by
  induction msgs generalizing db with
  | nil => simpa [saveNewMessages] using h
  | cons msg rest ih =>
    simp only [saveNewMessages]
    by_cases hm : msg.id ≠ 0
    · rw [if_pos hm]; exact ih db h
    · rw [if_neg hm]
      dsimp only
      apply ih
      intro m hmem
      simp only [DB.createMessage, List.mem_append, List.mem_singleton] at hmem
      rcases hmem with hmem | hmem
      · exact Nat.lt_succ_of_lt (h m hmem)
      · subst hmem; exact Nat.lt_succ_self _

theorem saveNewMessages_events (model : String) (cid : Nat)
    (msgs : List Message) (db : DB) :
    ∀ e ∈ (saveNewMessages model cid msgs db).2,
      ∃ i, ∃ msg ∈ msgs, msg.id = 0 ∧
        e = Event.createTurn { id := i, chatID := cid, role := msg.role,
                               content := msg.content, modelName := model } := by
  induction msgs generalizing db with
  | nil => simp [saveNewMessages]
  | cons msg rest ih =>
    simp only [saveNewMessages]
    by_cases hm : msg.id ≠ 0
    · rw [if_pos hm]
      intro e he
      obtain ⟨i, m2, hm2, h0, he2⟩ := ih db e he
      exact ⟨i, m2, List.mem_cons_of_mem msg hm2, h0, he2⟩
    · rw [if_neg hm]
      have h0 : msg.id = 0 := by simpa using hm
      dsimp only
      intro e he
      rcases List.mem_cons.mp he with he | he
      · exact ⟨db.nextMsgID, msg, List.mem_cons_self msg rest, h0,
          by rw [he]; rfl⟩
      · obtain ⟨i, m2, hm2, h02, he2⟩ := ih _ e he
        exact ⟨i, m2, List.mem_cons_of_mem msg hm2, h02, he2⟩

/-- The final row the 200-branch leaves for the placeholder turn: content
from the parse, usage counters from the parse (they are zero exactly when
no update fired, which coincides with the stored defaults). -/
def placeholderRow (chat : models.Chat) (aid : Nat) (st : ParseState) :
    models.Message :=
  { id := aid, chatID := chat.id, role := "assistant",
    content := st.fullResponse,
    promptTokens := st.promptTokens,
    completionTokens := st.completionTokens,
    totalTokens := st.totalTokens }

theorem streamAndPersist_spec (decode : List Nat → Option StreamResponse)
    (chat : models.Chat) (db2 : DB) (ev2 : List Event) (body : List Nat)
    (hlt : ∀ m ∈ db2.messages, m.id < db2.nextMsgID) :
    (streamAndPersist decode chat db2 ev2 body).result = Except.ok () ∧
    (streamAndPersist decode chat db2 ev2 body).assistantID = some db2.nextMsgID ∧
    (streamAndPersist decode chat db2 ev2 body).written = (relayLoop body).2 ∧
    (streamAndPersist decode chat db2 ev2 body).db.chats = db2.chats ∧
    (streamAndPersist decode chat db2 ev2 body).db.messages =
      db2.messages ++
        [placeholderRow chat db2.nextMsgID (parseBuffer decode (relayLoop body).1)] ∧
    (streamAndPersist decode chat db2 ev2 body).db.findMsg db2.nextMsgID =
      some (placeholderRow chat db2.nextMsgID (parseBuffer decode (relayLoop body).1)) ∧
    (streamAndPersist decode chat db2 ev2 body).events =
      ev2 ++ [Event.createTurn { id := db2.nextMsgID, chatID := chat.id,
                                 role := "assistant", content := "" }]
        ++ (readLines body).map Event.write
        ++ [Event.updateContent db2.nextMsgID
              (parseBuffer decode (relayLoop body).1).fullResponse]
        ++ (if (parseBuffer decode (relayLoop body).1).promptTokens != 0
              || (parseBuffer decode (relayLoop body).1).completionTokens != 0
              || (parseBuffer decode (relayLoop body).1).totalTokens != 0 then
              [Event.updateUsage db2.nextMsgID
                (parseBuffer decode (relayLoop body).1).promptTokens
                (parseBuffer decode (relayLoop body).1).completionTokens
                (parseBuffer decode (relayLoop body).1).totalTokens]
            else []) := by
  have hne : ∀ m ∈ db2.messages, m.id ≠ db2.nextMsgID :=
    fun m hm => Nat.ne_of_lt (hlt m hm)
  have hfalse : ∀ m ∈ db2.messages, (m.id == db2.nextMsgID) = false := by
    intro m hm
    simpa using hne m hm
  have hmsgs : (streamAndPersist decode chat db2 ev2 body).db.messages =
      db2.messages ++
        [placeholderRow chat db2.nextMsgID (parseBuffer decode (relayLoop body).1)] := by
    unfold streamAndPersist
    dsimp only
    by_cases hcond : ((parseBuffer decode (relayLoop body).1).promptTokens != 0
        || (parseBuffer decode (relayLoop body).1).completionTokens != 0
        || (parseBuffer decode (relayLoop body).1).totalTokens != 0) = true
    · rw [if_pos hcond]
      simp only [DB.createMessage, DB.updateMessageContent, DB.updateMessageUsage]
      rw [List.map_append, map_upd_of_ne _ _ _ hne, List.map_append,
        map_upd_of_ne _ _ _ hne]
      simp [placeholderRow]
    · rw [if_neg hcond]
      have hz : (parseBuffer decode (relayLoop body).1).promptTokens = 0 ∧
          (parseBuffer decode (relayLoop body).1).completionTokens = 0 ∧
          (parseBuffer decode (relayLoop body).1).totalTokens = 0 := by
        simpa [not_or, and_assoc] using hcond
      simp only [DB.createMessage, DB.updateMessageContent]
      rw [List.map_append, map_upd_of_ne _ _ _ hne]
      simp [placeholderRow, hz.1, hz.2.1, hz.2.2]
  have hfind : (streamAndPersist decode chat db2 ev2 body).db.findMsg db2.nextMsgID =
      some (placeholderRow chat db2.nextMsgID (parseBuffer decode (relayLoop body).1)) := by
    rw [DB.findMsg, hmsgs]
    exact find?_concat_eq _ _ _ hfalse (by simp [placeholderRow])
  have hchats : (streamAndPersist decode chat db2 ev2 body).db.chats = db2.chats := by
    unfold streamAndPersist
    dsimp only
    by_cases hcond : ((parseBuffer decode (relayLoop body).1).promptTokens != 0
        || (parseBuffer decode (relayLoop body).1).completionTokens != 0
        || (parseBuffer decode (relayLoop body).1).totalTokens != 0) = true
    · rw [if_pos hcond]; rfl
    · rw [if_neg hcond]; rfl
  exact ⟨rfl, rfl, rfl, hchats, hmsgs, hfind, rfl⟩

theorem streamAndPersist_events (decode : List Nat → Option StreamResponse)
    (chat : models.Chat) (db2 : DB) (ev2 : List Event) (body : List Nat) :
    (streamAndPersist decode chat db2 ev2 body).events =
      ev2 ++ [Event.createTurn { id := db2.nextMsgID, chatID := chat.id,
                                 role := "assistant", content := "" }]
        ++ (readLines body).map Event.write
        ++ [Event.updateContent db2.nextMsgID
              (parseBuffer decode (relayLoop body).1).fullResponse]
        ++ (if (parseBuffer decode (relayLoop body).1).promptTokens != 0
              || (parseBuffer decode (relayLoop body).1).completionTokens != 0
              || (parseBuffer decode (relayLoop body).1).totalTokens != 0 then
              [Event.updateUsage db2.nextMsgID
                (parseBuffer decode (relayLoop body).1).promptTokens
                (parseBuffer decode (relayLoop body).1).completionTokens
                (parseBuffer decode (relayLoop body).1).totalTokens]
            else []) := rfl

theorem streamAndPersist_chats (decode : List Nat → Option StreamResponse)
    (chat : models.Chat) (db2 : DB) (ev2 : List Event) (body : List Nat) :
    (streamAndPersist decode chat db2 ev2 body).db.chats = db2.chats ∧
      (streamAndPersist decode chat db2 ev2 body).db.nextChatID = db2.nextChatID := by
  unfold streamAndPersist
  dsimp only
  by_cases hcond : ((parseBuffer decode (relayLoop body).1).promptTokens != 0
      || (parseBuffer decode (relayLoop body).1).completionTokens != 0
      || (parseBuffer decode (relayLoop body).1).totalTokens != 0) = true
  · rw [if_pos hcond]; exact ⟨rfl, rfl⟩
  · rw [if_neg hcond]; exact ⟨rfl, rfl⟩

theorem resolveChat_ok (cid : Nat) (db : DB)
    (hres : cid = 0 ∨ (db.firstChat cid).isSome) :
    ∃ chat cid2 db1 ev1, resolveChat cid db = Except.ok (chat, cid2, db1, ev1) ∧
      db1.messages = db.messages ∧ db1.nextMsgID = db.nextMsgID ∧
      (∀ e ∈ ev1, ∃ i, e = Event.createChat i) := by
  by_cases h0 : cid = 0
  · refine ⟨(db.createChat "").1, (db.createChat "").1.id, (db.createChat "").2,
      [Event.createChat (db.createChat "").1.id], ?_, rfl, rfl, ?_⟩
    · unfold resolveChat
      rw [if_neg (by simp [h0])]
    · intro e he
      simp at he
      exact ⟨_, he⟩
  · have hsome : (db.firstChat cid).isSome := hres.resolve_left h0
    obtain ⟨chat, hchat⟩ := Option.isSome_iff_exists.mp hsome
    refine ⟨chat, cid, db, [], ?_, rfl, rfl, by simp⟩
    unfold resolveChat
    rw [if_pos h0, hchat]

theorem Chat_status_error (decode : List Nat → Option StreamResponse)
    (errDecode : List Nat → Option (String × Int)) (req : ChatRequest)
    (cid : Nat) (body : List Nat) (db : DB) (code : Nat) (msg : String) (c : Int)
    (chat : models.Chat) (cid2 : Nat) (db1 : DB) (ev1 : List Event)
    (hresolve : resolveChat cid db = Except.ok (chat, cid2, db1, ev1))
    (hcode : code ≠ 200) (hbody : errDecode body = some (msg, c)) :
    Chat decode errDecode req cid (Upstream.resp code body) db =
      ⟨Except.error (ChatErr.apiError msg c),
       (saveNewMessages req.model cid2 req.messages db1).1, [],
       ev1 ++ (saveNewMessages req.model cid2 req.messages db1).2, none⟩ := by
  unfold Chat
  rw [hresolve]
  dsimp only
  rw [if_pos hcode, hbody]

theorem Chat_ok_eq (decode : List Nat → Option StreamResponse)
    (errDecode : List Nat → Option (String × Int)) (req : ChatRequest)
    (cid : Nat) (body : List Nat) (db : DB)
    (chat : models.Chat) (cid2 : Nat) (db1 : DB) (ev1 : List Event)
    (hresolve : resolveChat cid db = Except.ok (chat, cid2, db1, ev1)) :
    Chat decode errDecode req cid (Upstream.resp 200 body) db =
      streamAndPersist decode chat
        (saveNewMessages req.model cid2 req.messages db1).1
        (ev1 ++ (saveNewMessages req.model cid2 req.messages db1).2) body := by
  unfold Chat
  rw [hresolve]
  dsimp only
  rw [if_neg (by simp)]

theorem Chat_chats (decode : List Nat → Option StreamResponse)
    (errDecode : List Nat → Option (String × Int)) (req : ChatRequest)
    (cid : Nat) (up : Upstream) (db : DB) (chat : models.Chat)
    (hcid : cid ≠ 0) (hfind : db.firstChat cid = some chat) :
    (Chat decode errDecode req cid up db).db.chats = db.chats ∧
      (Chat decode errDecode req cid up db).db.nextChatID = db.nextChatID := by
  have hresolve : resolveChat cid db = Except.ok (chat, cid, db, []) := by
    unfold resolveChat
    rw [if_pos hcid, hfind]
  obtain ⟨hch, hnx⟩ := saveNewMessages_chats req.model cid req.messages db
  cases up with
  | connectFail =>
    unfold Chat
    rw [hresolve]
    dsimp only
    exact ⟨hch, hnx⟩
  | resp code body =>
    by_cases hc : code ≠ 200
    · unfold Chat
      rw [hresolve]
      dsimp only
      rw [if_pos hc]
      cases hb : errDecode body with
      | none => exact ⟨hch, hnx⟩
      | some mc => exact ⟨hch, hnx⟩
    · have h200 : code = 200 := by omega
      subst h200
      rw [Chat_ok_eq decode errDecode req cid body db chat cid db [] hresolve]
      obtain ⟨hsc, hsn⟩ := streamAndPersist_chats decode chat
        (saveNewMessages req.model cid req.messages db).1
        ([] ++ (saveNewMessages req.model cid req.messages db).2) body
      exact ⟨hsc.trans hch, hsn.trans hnx⟩

end services

/-! ### Claims -/

/-- C1 (amended): in the relay loop the bytes appended to the
accumulation buffer always equal the bytes written to the caller, and
when the upstream stream is empty or newline-terminated the written bytes
equal the upstream bytes, byte for byte and in order.  (The claim as
stated fails on a stream whose final line lacks a newline: that trailing
data is read but dropped, see the counterexample.) -/
theorem c1_relay_bytes (s : List Nat) :
    (relayLoop s).1 = (relayLoop s).2 ∧
      ((s = [] ∨ s.getLast? = some 10) → (relayLoop s).2 = s) := by
  refine ⟨by rw [relayLoop_eq], ?_⟩
  intro h
  rw [relayLoop_eq]
  have h1 := readLines_join_lineRest s
  rw [lineRest_eq_nil s h] at h1
  simpa using h1

/-- C1 counterexample: on the upstream stream consisting of the single
byte 100 and no newline, the byte is read from the body but nothing is
written to the caller, so written bytes do not equal read bytes. -/
theorem c1_counterexample : ¬ (relayLoop [100]).2 = [100] := by decide

/-- C1 witness at the concrete stream `sampleBody`. -/
theorem c1_witness :
    (relayLoop sampleBody).1 = (relayLoop sampleBody).2 ∧
      (relayLoop sampleBody).2 = sampleBody :=
  ⟨(c1_relay_bytes sampleBody).1,
   (c1_relay_bytes sampleBody).2 (Or.inr (by decide))⟩

/-- C10: when the upstream stream is a newline-terminated (or empty)
part followed by nonempty trailing data with no newline, the relay loop
drops that trailing partial line at EOF: neither the caller bytes nor the
accumulation buffer contain it. -/
theorem c10_partial_line_dropped (u t : List Nat)
    (hu : u = [] ∨ u.getLast? = some 10) (ht : ∀ b ∈ t, b ≠ 10) :
    (relayLoop (u ++ t)).2 = u ∧ (relayLoop (u ++ t)).1 = u := by
  have hrl : readLines (u ++ t) = readLines u := by
    rw [readLines_append u t (lineRest_eq_nil u hu),
      readLines_none t ((breakLine_none_iff t).mpr ht)]
    simp
  have hju : (readLines u).flatten = u := by
    have h1 := readLines_join_lineRest u
    rw [lineRest_eq_nil u hu] at h1
    simpa using h1
  constructor
  · rw [relayLoop_eq]
    show (readLines (u ++ t)).flatten = u
    rw [hrl, hju]
  · rw [relayLoop_eq]
    show (readLines (u ++ t)).flatten = u
    rw [hrl, hju]

/-- C10 witness: `sampleBody` followed by the partial bytes `da`. -/
theorem c10_witness :
    (relayLoop (sampleBody ++ [100, 97])).2 = sampleBody ∧
      (relayLoop (sampleBody ++ [100, 97])).1 = sampleBody :=
  c10_partial_line_dropped sampleBody [100, 97] (Or.inr (by decide)) (by decide)

/-- C8: the message-saving loop inserts exactly the input turns whose id
is zero, preserving role, content and order (turns carrying an id are
never re-inserted), while the upstream payload contains every input turn
as a role/content pair in the original order. -/
theorem c8_skip_existing_turns (model : String) (cid : Nat)
    (msgs : List services.Message) (db : DB) (req : services.ChatRequest) :
    (services.saveNewMessages model cid msgs db).1.messages.map models.Message.rc =
      db.messages.map models.Message.rc ++
        (msgs.filter (fun m => m.id == 0)).map services.Message.rc ∧
    (services.buildAPIRequest req).messages =
      req.messages.map (fun m => { role := m.role, content := m.content }) :=
  ⟨services.saveNewMessages_rc model cid msgs db, rfl⟩

/-- C9: the upstream request body is a function only of the model, the
role/content pairs in order, and the stream flag — two requests agreeing
on those but differing in internal ids, chat ids or other stored fields
produce identical payloads. -/
theorem c9_payload_oblivious (r1 r2 : services.ChatRequest)
    (hm : r1.model = r2.model) (hs : r1.stream = r2.stream)
    (hmsg : r1.messages.map services.Message.rc =
      r2.messages.map services.Message.rc) :
    services.buildAPIRequest r1 = services.buildAPIRequest r2 := by
  have key : ∀ (l : List services.Message),
      l.map (fun m => ({ role := m.role, content := m.content } :
          services.ChatMessage)) =
        (l.map services.Message.rc).map
          (fun p => { role := p.1, content := p.2 }) := by
    intro l
    rw [List.map_map]
    rfl
  have hmm2 : r1.messages.map (fun m =>
      ({ role := m.role, content := m.content } : services.ChatMessage)) =
      r2.messages.map (fun m =>
      ({ role := m.role, content := m.content } : services.ChatMessage)) := by
    rw [key, key, hmsg]
  unfold services.buildAPIRequest
  rw [hm, hs, hmm2]

/-- C9 witness: `req0` and `req1` differ only in ids, chat ids and stored
model names, and produce the same payload. -/
theorem c9_witness :
    services.buildAPIRequest req0 = services.buildAPIRequest req1 :=
  c9_payload_oblivious req0 req1 rfl rfl (by decide)

/-- C6: submitting with a nonzero conversation id absent from the store
fails with the not-found error before any write: the store is unchanged
(so no turn is created) and nothing is written to the caller. -/
theorem c6_unknown_chat (decode : List Nat → Option services.StreamResponse)
    (errDecode : List Nat → Option (String × Int))
    (req : services.ChatRequest) (up : services.Upstream) (db : DB)
    (h0 : req.chatID ≠ 0) (habs : db.firstChat req.chatID = none) :
    (controllers.HandleChat decode errDecode req up db).result =
        Except.error controllers.HandleErr.notFound ∧
      (controllers.HandleChat decode errDecode req up db).db = db ∧
      (controllers.HandleChat decode errDecode req up db).written = [] := by
  unfold controllers.HandleChat
  rw [if_pos h0, habs]
  exact ⟨rfl, rfl, rfl⟩

/-- C2: for every submission whose upstream call succeeds, the content
persisted to the placeholder assistant turn equals the concatenation, in
arrival order, of the `delta.content` of the first choice of every
`data: ` line of the accumulated buffer whose payload is not `[DONE]` and
decodes; undecodable lines are skipped. -/
theorem c2_persisted_content (decode : List Nat → Option services.StreamResponse)
    (errDecode : List Nat → Option (String × Int))
    (req : services.ChatRequest) (cid : Nat) (body : List Nat) (db : DB)
    (hwf : ∀ m ∈ db.messages, m.id < db.nextMsgID)
    (hres : cid = 0 ∨ (db.firstChat cid).isSome) :
    ∃ aid m,
      (services.Chat decode errDecode req cid
          (services.Upstream.resp 200 body) db).assistantID = some aid ∧
      (services.Chat decode errDecode req cid
          (services.Upstream.resp 200 body) db).db.findMsg aid = some m ∧
      m.role = "assistant" ∧
      m.content = services.specAssembledContent decode (relayLoop body).1 := by
  obtain ⟨chat, cid2, db1, ev1, hre, hm1, hn1, hev1⟩ :=
    services.resolveChat_ok cid db hres
  rw [services.Chat_ok_eq decode errDecode req cid body db chat cid2 db1 ev1 hre]
  have hlt1 : ∀ m ∈ db1.messages, m.id < db1.nextMsgID := by
    rw [hm1, hn1]
    exact hwf
  have hlt2 := services.saveNewMessages_bound req.model cid2 req.messages db1 hlt1
  obtain ⟨hr, ha, hw, hc, hms, hf, he⟩ := services.streamAndPersist_spec decode chat
    (services.saveNewMessages req.model cid2 req.messages db1).1
    (ev1 ++ (services.saveNewMessages req.model cid2 req.messages db1).2) body hlt2
  refine ⟨_, _, ha, hf, rfl, ?_⟩
  show (services.parseBuffer decode (relayLoop body).1).fullResponse = _
  exact services.parseBuffer_content decode (relayLoop body).1

/-- C2 witness at `req0`, `sampleBody`, the empty store. -/
theorem c2_witness :
    ∃ aid m,
      (services.Chat decode0 errDecode0 req0 0
          (services.Upstream.resp 200 sampleBody) db0).assistantID = some aid ∧
      (services.Chat decode0 errDecode0 req0 0
          (services.Upstream.resp 200 sampleBody) db0).db.findMsg aid = some m ∧
      m.role = "assistant" ∧
      m.content = services.specAssembledContent decode0 (relayLoop sampleBody).1 :=
  c2_persisted_content decode0 errDecode0 req0 0 sampleBody db0
    (by decide) (Or.inl rfl)

/-- C3: if at least one decoded `data: ` record of the accumulated buffer
carries a usage object, the persisted assistant turn's three token counts
equal the fields of the last such usage object observed. -/
theorem c3_persisted_usage (decode : List Nat → Option services.StreamResponse)
    (errDecode : List Nat → Option (String × Int))
    (req : services.ChatRequest) (cid : Nat) (body : List Nat) (db : DB)
    (u : Int × Int × Int)
    (hwf : ∀ m ∈ db.messages, m.id < db.nextMsgID)
    (hres : cid = 0 ∨ (db.firstChat cid).isSome)
    (husage : services.specLastUsage decode (relayLoop body).1 = some u) :
    ∃ aid m,
      (services.Chat decode errDecode req cid
          (services.Upstream.resp 200 body) db).assistantID = some aid ∧
      (services.Chat decode errDecode req cid
          (services.Upstream.resp 200 body) db).db.findMsg aid = some m ∧
      m.promptTokens = u.1 ∧ m.completionTokens = u.2.1 ∧
      m.totalTokens = u.2.2 := by
  obtain ⟨chat, cid2, db1, ev1, hre, hm1, hn1, hev1⟩ :=
    services.resolveChat_ok cid db hres
  rw [services.Chat_ok_eq decode errDecode req cid body db chat cid2 db1 ev1 hre]
  have hlt1 : ∀ m ∈ db1.messages, m.id < db1.nextMsgID := by
    rw [hm1, hn1]
    exact hwf
  have hlt2 := services.saveNewMessages_bound req.model cid2 req.messages db1 hlt1
  obtain ⟨hr, ha, hw, hc, hms, hf, he⟩ := services.streamAndPersist_spec decode chat
    (services.saveNewMessages req.model cid2 req.messages db1).1
    (ev1 ++ (services.saveNewMessages req.model cid2 req.messages db1).2) body hlt2
  have h3 := services.parseBuffer_usage decode (relayLoop body).1
  rw [husage, Option.getD_some] at h3
  refine ⟨_, _, ha, hf, ?_, ?_, ?_⟩
  · exact congrArg Prod.fst h3
  · exact congrArg (fun p => p.2.1) h3
  · exact congrArg (fun p => p.2.2) h3

/-- C3 witness: `sampleBody` carries one usage object `(3, 4, 7)`. -/
theorem c3_witness :
    ∃ aid m,
      (services.Chat decode0 errDecode0 req0 0
          (services.Upstream.resp 200 sampleBody) db0).assistantID = some aid ∧
      (services.Chat decode0 errDecode0 req0 0
          (services.Upstream.resp 200 sampleBody) db0).db.findMsg aid = some m ∧
      m.promptTokens = (3 : Int) ∧ m.completionTokens = (4 : Int) ∧
      m.totalTokens = (7 : Int) :=
  c3_persisted_usage decode0 errDecode0 req0 0 sampleBody db0 (3, 4, 7)
    (by decide) (Or.inl rfl) (by decide)

/-- C4: on a successful upstream response, an assistant turn with empty
content is created before any byte is written to the caller (every write
event comes after it in the trace); and when no zero-id input turn is
itself an empty assistant turn, exactly one empty-assistant creation
appears in the whole trace. -/
theorem c4_placeholder_before_writes
    (decode : List Nat → Option services.StreamResponse)
    (errDecode : List Nat → Option (String × Int))
    (req : services.ChatRequest) (cid : Nat) (body : List Nat) (db : DB)
    (hres : cid = 0 ∨ (db.firstChat cid).isSome) :
    (∃ t1 m t2,
        (services.Chat decode errDecode req cid
            (services.Upstream.resp 200 body) db).events =
          t1 ++ Event.createTurn m :: t2 ∧
        m.role = "assistant" ∧ m.content = "" ∧
        ∀ e ∈ t1, e.isWrite = false) ∧
    ((∀ ms ∈ req.messages, ms.id = 0 →
        ¬(ms.role = "assistant" ∧ ms.content = "")) →
      ((services.Chat decode errDecode req cid
          (services.Upstream.resp 200 body) db).events.filter
            Event.isEmptyAssistantTurn).length = 1) := by
  obtain ⟨chat, cid2, db1, ev1, hre, hm1, hn1, hev1⟩ :=
    services.resolveChat_ok cid db hres
  rw [services.Chat_ok_eq decode errDecode req cid body db chat cid2 db1 ev1 hre]
  rw [services.streamAndPersist_events]
  have hsv := services.saveNewMessages_events req.model cid2 req.messages db1
  constructor
  · refine ⟨ev1 ++ (services.saveNewMessages req.model cid2 req.messages db1).2,
      { id := (services.saveNewMessages req.model cid2 req.messages db1).1.nextMsgID,
        chatID := chat.id, role := "assistant", content := "" },
      (readLines body).map Event.write
        ++ [Event.updateContent
              (services.saveNewMessages req.model cid2 req.messages db1).1.nextMsgID
              (services.parseBuffer decode (relayLoop body).1).fullResponse]
        ++ (if (services.parseBuffer decode (relayLoop body).1).promptTokens != 0
              || (services.parseBuffer decode (relayLoop body).1).completionTokens != 0
              || (services.parseBuffer decode (relayLoop body).1).totalTokens != 0 then
              [Event.updateUsage
                (services.saveNewMessages req.model cid2 req.messages db1).1.nextMsgID
                (services.parseBuffer decode (relayLoop body).1).promptTokens
                (services.parseBuffer decode (relayLoop body).1).completionTokens
                (services.parseBuffer decode (relayLoop body).1).totalTokens]
            else []),
      ?_, rfl, rfl, ?_⟩
    · simp [List.append_assoc]
    · intro e he
      rcases List.mem_append.mp he with he | he
      · obtain ⟨i, hi⟩ := hev1 e he
        rw [hi]
        rfl
      · obtain ⟨i, msg, hmem, h0, heq⟩ := hsv e he
        rw [heq]
        rfl
  · intro hin
    have hA : (ev1 ++ (services.saveNewMessages req.model cid2
        req.messages db1).2).filter Event.isEmptyAssistantTurn = [] := by
      rw [List.filter_eq_nil_iff]
      intro e he
      rcases List.mem_append.mp he with he | he
      · obtain ⟨i, hi⟩ := hev1 e he
        rw [hi]
        simp [Event.isEmptyAssistantTurn]
      · obtain ⟨i, msg, hmem, h0, heq⟩ := hsv e he
        rw [heq]
        simp only [Event.isEmptyAssistantTurn, Bool.and_eq_true, beq_iff_eq,
          not_and]
        intro hrole hcont
        exact hin msg hmem h0 ⟨hrole, hcont⟩
    have hC : ((readLines body).map Event.write).filter
        Event.isEmptyAssistantTurn = [] := by
      rw [List.filter_eq_nil_iff]
      intro e he
      obtain ⟨l, hl, hle⟩ := List.mem_map.mp he
      rw [← hle]
      simp [Event.isEmptyAssistantTurn]
    have hE : ((if (services.parseBuffer decode (relayLoop body).1).promptTokens != 0
          || (services.parseBuffer decode (relayLoop body).1).completionTokens != 0
          || (services.parseBuffer decode (relayLoop body).1).totalTokens != 0 then
          [Event.updateUsage (services.saveNewMessages req.model cid2
              req.messages db1).1.nextMsgID
            (services.parseBuffer decode (relayLoop body).1).promptTokens
            (services.parseBuffer decode (relayLoop body).1).completionTokens
            (services.parseBuffer decode (relayLoop body).1).totalTokens]
        else [])).filter Event.isEmptyAssistantTurn = [] := by
      rw [List.filter_eq_nil_iff]
      intro e he
      split at he
      · simp at he
        rw [he]
        simp [Event.isEmptyAssistantTurn]
      · simp at he
    rw [List.filter_append, List.filter_append, List.filter_append,
      List.filter_append, hA, hC, hE]
    simp [Event.isEmptyAssistantTurn]

/-- C4 witness at `req0`, `sampleBody`, the empty store. -/
theorem c4_witness :
    (∃ t1 m t2,
        (services.Chat decode0 errDecode0 req0 0
            (services.Upstream.resp 200 sampleBody) db0).events =
          t1 ++ Event.createTurn m :: t2 ∧
        m.role = "assistant" ∧ m.content = "" ∧
        ∀ e ∈ t1, e.isWrite = false) ∧
    ((services.Chat decode0 errDecode0 req0 0
        (services.Upstream.resp 200 sampleBody) db0).events.filter
          Event.isEmptyAssistantTurn).length = 1 :=
  ⟨(c4_placeholder_before_writes decode0 errDecode0 req0 0 sampleBody db0
      (Or.inl rfl)).1,
   (c4_placeholder_before_writes decode0 errDecode0 req0 0 sampleBody db0
      (Or.inl rfl)).2 (by decide)⟩

/-- C5: when the upstream returns a non-200 status with a decodable error
body, `Chat` returns the error carrying the upstream message and code,
writes nothing to the caller, creates no assistant turn (no placeholder
id is produced and, when no input turn has the assistant role, no
assistant-creating event occurs), and the store keeps every previously
persisted turn plus exactly the zero-id input turns saved in step 2. -/
theorem c5_status_error (decode : List Nat → Option services.StreamResponse)
    (errDecode : List Nat → Option (String × Int))
    (req : services.ChatRequest) (cid : Nat) (body : List Nat) (db : DB)
    (code : Nat) (msg : String) (c : Int)
    (hcode : code ≠ 200)
    (hres : cid = 0 ∨ (db.firstChat cid).isSome)
    (hbody : errDecode body = some (msg, c)) :
    (services.Chat decode errDecode req cid
        (services.Upstream.resp code body) db).result =
      Except.error (services.ChatErr.apiError msg c) ∧
    (services.Chat decode errDecode req cid
        (services.Upstream.resp code body) db).written = [] ∧
    (services.Chat decode errDecode req cid
        (services.Upstream.resp code body) db).assistantID = none ∧
    (services.Chat decode errDecode req cid
        (services.Upstream.resp code body) db).db.messages.map models.Message.rc =
      db.messages.map models.Message.rc ++
        (req.messages.filter (fun m => m.id == 0)).map services.Message.rc ∧
    (services.Chat decode errDecode req cid
        (services.Upstream.resp code body) db).db.messages.take
      db.messages.length = db.messages ∧
    ((∀ ms ∈ req.messages, ms.role ≠ "assistant") →
      ∀ e ∈ (services.Chat decode errDecode req cid
          (services.Upstream.resp code body) db).events,
        e.isAssistantCreate = false) := by
  obtain ⟨chat, cid2, db1, ev1, hre, hm1, hn1, hev1⟩ :=
    services.resolveChat_ok cid db hres
  rw [services.Chat_status_error decode errDecode req cid body db code msg c
    chat cid2 db1 ev1 hre hcode hbody]
  refine ⟨rfl, rfl, rfl, ?_, ?_, ?_⟩
  · have := services.saveNewMessages_rc req.model cid2 req.messages db1
    rw [hm1] at this
    exact this
  · obtain ⟨app, happ⟩ :=
      services.saveNewMessages_append req.model cid2 req.messages db1
    show (services.saveNewMessages req.model cid2 req.messages db1).1.messages.take
        db.messages.length = db.messages
    rw [happ, hm1, List.take_left]
  · intro hroles e he
    rcases List.mem_append.mp he with he | he
    · obtain ⟨i, hi⟩ := hev1 e he
      rw [hi]
      rfl
    · obtain ⟨i, msg2, hmem, h0, heq⟩ :=
        services.saveNewMessages_events req.model cid2 req.messages db1 e he
      rw [heq]
      simp only [Event.isAssistantCreate, beq_eq_false_iff_ne]
      exact hroles msg2 hmem

/-- C5 witness: the 429 "rate limited" scenario against the empty store. -/
theorem c5_witness :
    (services.Chat decode0 errDecode0 req0 0
        (services.Upstream.resp 429 [120]) db0).result =
      Except.error (services.ChatErr.apiError "rate limited" 429) ∧
    (services.Chat decode0 errDecode0 req0 0
        (services.Upstream.resp 429 [120]) db0).written = [] ∧
    (services.Chat decode0 errDecode0 req0 0
        (services.Upstream.resp 429 [120]) db0).assistantID = none ∧
    (services.Chat decode0 errDecode0 req0 0
        (services.Upstream.resp 429 [120]) db0).db.messages.map
      models.Message.rc =
      db0.messages.map models.Message.rc ++
        (req0.messages.filter (fun m => m.id == 0)).map services.Message.rc ∧
    (services.Chat decode0 errDecode0 req0 0
        (services.Upstream.resp 429 [120]) db0).db.messages.take
      db0.messages.length = db0.messages ∧
    (∀ e ∈ (services.Chat decode0 errDecode0 req0 0
        (services.Upstream.resp 429 [120]) db0).events,
      e.isAssistantCreate = false) := by
  have h := c5_status_error decode0 errDecode0 req0 0 [120] db0 429
    "rate limited" 429 (by decide) (Or.inl rfl) rfl
  exact ⟨h.1, h.2.1, h.2.2.1, h.2.2.2.1, h.2.2.2.2.1,
    h.2.2.2.2.2 (by decide)⟩

/-- C7: a submission with a zero conversation id creates exactly one new
conversation, tagged with the requested model, across the whole path (the
route layer creates it and the relay's own creation branch does not
fire), and its id is surfaced in the `X-Chat-ID` header. -/
theorem c7_new_conversation (decode : List Nat → Option services.StreamResponse)
    (errDecode : List Nat → Option (String × Int))
    (req : services.ChatRequest) (up : services.Upstream) (db : DB)
    (h0 : req.chatID = 0)
    (hc : ∀ ch ∈ db.chats, ch.id < db.nextChatID)
    (h1 : 1 ≤ db.nextChatID) :
    (controllers.HandleChat decode errDecode req up db).xChatID =
        some db.nextChatID ∧
      (controllers.HandleChat decode errDecode req up db).db.chats =
        db.chats ++
          [{ id := db.nextChatID, modelName := req.model, starred := false }] := by
  unfold controllers.HandleChat
  rw [if_neg (by simp [h0])]
  refine ⟨rfl, ?_⟩
  have hfind : (db.createChat req.model).2.firstChat
      (db.createChat req.model).1.id = some (db.createChat req.model).1 := by
    show (db.chats ++ [(db.createChat req.model).1]).find?
        (fun ch => ch.id == db.nextChatID) = some (db.createChat req.model).1
    refine find?_concat_eq _ _ _ ?_ (by simp [DB.createChat])
    intro y hy
    have hne : y.id ≠ db.nextChatID := Nat.ne_of_lt (hc y hy)
    simpa using hne
  have hcid : (db.createChat req.model).1.id ≠ 0 := by
    show db.nextChatID ≠ 0
    omega
  obtain ⟨hch, hnx⟩ := services.Chat_chats decode errDecode req
    (db.createChat req.model).1.id up (db.createChat req.model).2
    (db.createChat req.model).1 hcid hfind
  exact hch

/-- C7 witness at `req0` against the empty store. -/
theorem c7_witness :
    (controllers.HandleChat decode0 errDecode0 req0
        (services.Upstream.resp 200 sampleBody) db0).xChatID =
        some db0.nextChatID ∧
      (controllers.HandleChat decode0 errDecode0 req0
          (services.Upstream.resp 200 sampleBody) db0).db.chats =
        db0.chats ++
          [{ id := db0.nextChatID, modelName := req0.model, starred := false }] :=
  c7_new_conversation decode0 errDecode0 req0
    (services.Upstream.resp 200 sampleBody) db0 rfl (by decide) (by decide)

/-- C6 witness: chat id 5 against the empty store. -/
theorem c6_witness :
    (controllers.HandleChat decode0 errDecode0 { req0 with chatID := 5 }
        (services.Upstream.resp 200 sampleBody) db0).result =
      Except.error controllers.HandleErr.notFound ∧
    (controllers.HandleChat decode0 errDecode0 { req0 with chatID := 5 }
        (services.Upstream.resp 200 sampleBody) db0).db = db0 ∧
    (controllers.HandleChat decode0 errDecode0 { req0 with chatID := 5 }
        (services.Upstream.resp 200 sampleBody) db0).written = [] :=
  c6_unknown_chat decode0 errDecode0 { req0 with chatID := 5 }
    (services.Upstream.resp 200 sampleBody) db0 (by decide) (by decide)

end AIPG
